import Mathlib

/-!
# Broker uplink pipeline (core/broker/uplink.go)

A shallow embedding of `HandleUplink`, `deduplicateUplink` and
`selectBestDownlink`.  The collaborators of the broker (deduplicator, network
server, LoRaWAN codec, application store, handler registry, `sort.Sort`) are
fields of an environment `Env`; every call the function makes to the outside and
every channel send is recorded, in program order, in the list of events of the
run.  Machine integers (`uint32`) are natural numbers, reduced modulo `2^32`
where the source subtracts.
-/

namespace Broker

deriving instance DecidableEq for Except

/-! ## Data model -/

/-- Fixed-size byte arrays (`types.DevAddr`, `types.AppEUI`, `types.DevEUI`,
`lorawan.AES128Key`) are kept as byte lists. -/
abbrev Bytes := List Nat

/-- The message `pb.DownlinkOption`: the routing identifier and the score are the
fields this file and `ByScore` read. -/
structure DownlinkOption where
  Identifier : String
  Score : Nat
deriving DecidableEq, Repr

/-- The message `gateway.RxMetadata`; the pipeline only copies the pointer, so a
gateway identity and a timestamp stand for its contents. -/
structure RxMetadata where
  GatewayEui : Bytes
  Timestamp : Nat
deriving DecidableEq, Repr

/-- The LoRaWAN branch of the protocol metadata; `FCnt` is the only field the
pipeline writes, `Other` stands for the fields it leaves alone. -/
structure LorawanMetadata where
  FCnt : Nat
  Other : String
deriving DecidableEq, Repr

/-- The message `protocol.RxMetadata`: `GetLorawan()` is the field `Lorawan`,
`none` when the metadata is nil or of another protocol. -/
structure ProtocolRxMetadata where
  Lorawan : Option LorawanMetadata
deriving DecidableEq, Repr

/-- The message `pb.UplinkMessage`. -/
structure UplinkMessage where
  Payload : Bytes
  ProtocolMetadata : ProtocolRxMetadata
  GatewayMetadata : RxMetadata
  DownlinkOptions : List DownlinkOption
deriving DecidableEq, Repr

/-- The message `pb.DownlinkMessage`, as built at line 106: only `DownlinkOption`
is set. -/
structure DownlinkMessage where
  DownlinkOption : DownlinkOption
deriving DecidableEq, Repr

/-- The message `pb.DeduplicatedUplinkMessage`, with the fields set at lines
112-120.  `ResponseTemplate = none` is the nil pointer. -/
structure DeduplicatedUplinkMessage where
  Payload : Bytes
  DevEui : Bytes
  AppEui : Bytes
  ProtocolMetadata : ProtocolRxMetadata
  GatewayMetadata : List RxMetadata
  ServerTime : Int
  ResponseTemplate : Option DownlinkMessage
deriving DecidableEq, Repr

/-- One entry of `DevicesResponse.Results`. -/
structure Device where
  AppEui : Bytes
  DevEui : Bytes
  NwkSKey : Bytes
  StoredFCnt : Nat
  FullFCnt : Nat
  DisableFCntCheck : Bool
  Uses32BitFCnt : Bool
deriving DecidableEq, Repr

/-- The request `networkserver.DevicesRequest` built at lines 54-57. -/
structure DevicesRequest where
  DevAddr : Bytes
  FCnt : Nat
deriving DecidableEq, Repr

/-- The frame header `lorawan.FHDR`: device address and frame counter are the
fields the pipeline reads and writes. -/
structure FHDR where
  DevAddr : Bytes
  FCnt : Nat
deriving DecidableEq, Repr

/-- The value `lorawan.MACPayload`; `Body` stands for port and frame payload. -/
structure MACPayload where
  FHDR : FHDR
  Body : Bytes
deriving DecidableEq, Repr

/-- The interface value `phyPayload.MACPayload`: either a `*lorawan.MACPayload`
or another payload (join request, join accept), for which the type assertion of
line 47 fails. -/
inductive Payload where
  | mac (m : MACPayload)
  | other (raw : Bytes)
deriving DecidableEq, Repr

/-- The value `lorawan.PHYPayload`. -/
structure PHYPayload where
  MHDR : Nat
  MACPayload : Payload
  MIC : Bytes
deriving DecidableEq, Repr

/-- An application record, as far as line 133 reads it. -/
structure Application where
  HandlerID : String
deriving DecidableEq, Repr

/-- A handler channel (`chan *pb.DeduplicatedUplinkMessage`), by identity. -/
abbrev Chan := Nat

/-- The errors `HandleUplink` can return, by the place that returns them.  The
three package-level sentinels keep their names; an error handed back by a
collaborator carries that collaborator's text and is tagged with the call it came
from, so it is a different value from the sentinels. -/
inductive Error where
  | nonLoRaWAN
  | unmarshal (e : String)
  | noMACPayload
  | getDevices (e : String)
  | ErrNotFound
  | validateMIC (e : String)
  | ErrNoMatch
  | ErrInvalidFCnt
  | nsUplink (e : String)
  | applicationsGet (e : String)
  | getHandler (e : String)
deriving DecidableEq, Repr

/-- How a run ends: it returns (`none` is the nil error) or it panics with an
index out of range. -/
inductive Outcome where
  | returned (err : Option Error)
  | panicked
deriving DecidableEq, Repr

/-- What a run does to the outside, in program order. -/
inductive Event where
  | getDevices (req : DevicesRequest)
  | validateMIC (phy : PHYPayload) (key : Bytes) (res : Except String Bool)
  | selectBest (options : List DownlinkOption)
  | nsUplink (msg : DeduplicatedUplinkMessage)
  | applicationsGet (appEui : Bytes)
  | getHandler (id : String)
  | push (handler : Chan) (msg : DeduplicatedUplinkMessage)
deriving DecidableEq

/-- A run of `HandleUplink`: how it ended and what it did. -/
structure Run where
  out : Outcome
  events : List Event
deriving DecidableEq

/-- The collaborators of the broker and the library functions the pipeline calls.
Each field is the answer the collaborator gives to this call. -/
structure Env where
  /-- The value `time.Now().UnixNano()` of line 27/118. -/
  now : Int
  /-- The key `hex.EncodeToString(md5.Sum(payload))`. -/
  Sum : Bytes → String
  /-- The call `b.uplinkDeduplicator.Deduplicate(key, duplicate)`. -/
  Deduplicate : String → UplinkMessage → List UplinkMessage
  /-- The call `phyPayload.UnmarshalBinary(payload)`. -/
  UnmarshalBinary : Bytes → Except String PHYPayload
  /-- The call `b.ns.GetDevices(ctx, req)`, giving `Results`. -/
  GetDevices : DevicesRequest → Except String (List Device)
  /-- The call `phyPayload.ValidateMIC(key)`. -/
  ValidateMIC : PHYPayload → Bytes → Except String Bool
  /-- The effect of `sort.Sort` on a slice, for a given `Less`. -/
  sortSort : (DownlinkOption → DownlinkOption → Bool) → List DownlinkOption → List DownlinkOption
  /-- The call `b.ns.Uplink(ctx, msg)`. -/
  Uplink : DeduplicatedUplinkMessage → Except String DeduplicatedUplinkMessage
  /-- The call `b.applications.Get(appEui)`. -/
  applicationsGet : Bytes → Except String Application
  /-- The call `b.getHandler(id)`. -/
  getHandler : String → Except String Chan

/-! ## The program -/

/-- The constant `maxFCntGap` (line 18). -/
def maxFCntGap : Nat := 16384

/-- Subtraction of `uint32` values, which wraps around. -/
def subU32 (a b : Nat) : Nat := (a + 2 ^ 32 - b) % 2 ^ 32

/-- Modelled from the spec: `ByScore`, the `sort.Interface` over
`[]*pb.DownlinkOption` that `selectBestDownlink` sorts with, is declared in
another file of the package.  The spec has the selector "return the one with the highest
score" from the front of the sorted slice, so `Less` puts the higher score
first. -/
def ByScore.Less (a b : DownlinkOption) : Bool := decide (b.Score < a.Score)

/-- The function `selectBestDownlink` (lines 156-159): sort by score, return
element 0.  `none` is the index-out-of-range panic on an empty slice. -/
def selectBestDownlink (env : Env) (options : List DownlinkOption) : Option DownlinkOption :=
  (env.sortSort ByScore.Less options).head?

/-- The function `deduplicateUplink` (lines 143-154).  The deduplicator of
uplinks only holds uplink messages, so the type assertion of line 151 is the
identity. -/
def deduplicateUplink (env : Env) (duplicate : UplinkMessage) : List UplinkMessage :=
  let key := env.Sum duplicate.Payload
  let list := env.Deduplicate key duplicate
  if list.length = 0 then []
  else list.foldl (fun uplinks d => uplinks ++ [d]) []

/-- The frame as `ValidateMIC` sees it: `macPayload` points into `phyPayload`. -/
def withMAC (phy : PHYPayload) (m : MACPayload) : PHYPayload :=
  { phy with MACPayload := Payload.mac m }

/-- The assignment `macPayload.FHDR.FCnt = fcnt`. -/
def setFCnt (m : MACPayload) (fcnt : Nat) : MACPayload :=
  { m with FHDR := { m.FHDR with FCnt := fcnt } }

/-- Lines 69-71: the header as candidate `c` leaves it before its check. -/
def widen (m : MACPayload) (c : Device) : MACPayload :=
  if c.Uses32BitFCnt then setFCnt m c.FullFCnt else m

/-- How the matching loop (lines 66-80) ends. -/
inductive Match where
  | failed (e : String)
  | found (device : Device)
  | noMatch
deriving DecidableEq, Repr

/-- State after the matching loop: its end, the MAC payload as the loop left it,
and the checks it made. -/
structure Matched where
  res : Match
  macPayload : MACPayload
  events : List Event
deriving DecidableEq

/-- The matching loop of lines 66-80.  The header is the loop's state: a
candidate in 32-bit mode overwrites the frame counter, and nothing restores
it. -/
def findDevice (env : Env) (phy : PHYPayload) : MACPayload → List Device → Matched
  | m, [] => ⟨Match.noMatch, m, []⟩
  | m, candidate :: rest =>
    let m1 := widen m candidate
    let r := env.ValidateMIC (withMAC phy m1) candidate.NwkSKey
    let ev := Event.validateMIC (withMAC phy m1) candidate.NwkSKey r
    match r with
    | Except.error e => ⟨Match.failed e, m1, [ev]⟩
    | Except.ok true => ⟨Match.found candidate, m1, [ev]⟩
    | Except.ok false =>
      let s := findDevice env phy m1 rest
      ⟨s.res, s.macPayload, ev :: s.events⟩

/-- The condition of line 85-87 under which `ErrInvalidFCnt` is returned. -/
def invalidFCnt (device : Device) (fcnt : Nat) : Bool :=
  if device.DisableFCntCheck then false
  else decide (fcnt < device.StoredFCnt) || decide (subU32 fcnt device.StoredFCnt > maxFCntGap)

/-- The loop of lines 99-102: gateway metadata and downlink options of the
duplicates, appended in order. -/
def collect (duplicates : List UplinkMessage) : List RxMetadata × List DownlinkOption :=
  duplicates.foldl
    (fun acc duplicate => (acc.1 ++ [duplicate.GatewayMetadata], acc.2 ++ duplicate.DownlinkOptions))
    ([], [])

/-- Lines 122-140: the network-server round trip, the lookup of the handler and
the send on its channel. -/
def deliver (env : Env) (device : Device) (msg : DeduplicatedUplinkMessage) (pre : List Event) : Run :=
  match env.Uplink msg with
  | Except.error e => ⟨Outcome.returned (some (Error.nsUplink e)), pre ++ [Event.nsUplink msg]⟩
  | Except.ok msg1 =>
    match env.applicationsGet device.AppEui with
    | Except.error e =>
      ⟨Outcome.returned (some (Error.applicationsGet e)),
        pre ++ [Event.nsUplink msg, Event.applicationsGet device.AppEui]⟩
    | Except.ok application =>
      match env.getHandler application.HandlerID with
      | Except.error e =>
        ⟨Outcome.returned (some (Error.getHandler e)),
          pre ++ [Event.nsUplink msg, Event.applicationsGet device.AppEui,
            Event.getHandler application.HandlerID]⟩
      | Except.ok handler =>
        ⟨Outcome.returned none,
          pre ++ [Event.nsUplink msg, Event.applicationsGet device.AppEui,
            Event.getHandler application.HandlerID, Event.push handler msg1]⟩

/-- Lines 112-120: the message built from the base duplicate, the matched device
and the merged lists. -/
def buildUplink (env : Env) (base : UplinkMessage) (lw : LorawanMetadata) (device : Device)
    (gatewayMetadata : List RxMetadata) (downlinkMessage : Option DownlinkMessage) :
    DeduplicatedUplinkMessage :=
  { Payload := base.Payload
    DevEui := device.DevEui
    AppEui := device.AppEui
    ProtocolMetadata := { base.ProtocolMetadata with Lorawan := some { lw with FCnt := device.FullFCnt } }
    GatewayMetadata := gatewayMetadata
    ServerTime := env.now
    ResponseTemplate := downlinkMessage }

/-- Lines 92-140: everything after the anti-replay check. -/
def assemble (env : Env) (duplicates : List UplinkMessage) (base : UplinkMessage)
    (lw : LorawanMetadata) (device : Device) (pre : List Event) : Run :=
  let gatewayMetadata := (collect duplicates).1
  let downlinkOptions := (collect duplicates).2
  if downlinkOptions.length > 0 then
    match selectBestDownlink env downlinkOptions with
    | none => ⟨Outcome.panicked, pre ++ [Event.selectBest downlinkOptions]⟩
    | some best =>
      deliver env device (buildUplink env base lw device gatewayMetadata (some ⟨best⟩))
        (pre ++ [Event.selectBest downlinkOptions])
  else
    deliver env device (buildUplink env base lw device gatewayMetadata none) pre

/-- Lines 52-90: candidate lookup, matching and the anti-replay check, then the
rest of the pipeline. -/
def resolve (env : Env) (duplicates : List UplinkMessage) (base : UplinkMessage)
    (lw : LorawanMetadata) (phy : PHYPayload) (macPayload : MACPayload) : Run :=
  let req : DevicesRequest := ⟨macPayload.FHDR.DevAddr, macPayload.FHDR.FCnt⟩
  match env.GetDevices req with
  | Except.error e => ⟨Outcome.returned (some (Error.getDevices e)), [Event.getDevices req]⟩
  | Except.ok results =>
    if results.length = 0 then
      ⟨Outcome.returned (some Error.ErrNotFound), [Event.getDevices req]⟩
    else
      let s := findDevice env phy macPayload results
      match s.res with
      | Match.failed e =>
        ⟨Outcome.returned (some (Error.validateMIC e)), Event.getDevices req :: s.events⟩
      | Match.noMatch =>
        ⟨Outcome.returned (some Error.ErrNoMatch), Event.getDevices req :: s.events⟩
      | Match.found device =>
        if invalidFCnt device s.macPayload.FHDR.FCnt then
          ⟨Outcome.returned (some Error.ErrInvalidFCnt), Event.getDevices req :: s.events⟩
        else
          assemble env duplicates base lw device (Event.getDevices req :: s.events)

/-- The method `HandleUplink` (lines 26-141). -/
def HandleUplink (env : Env) (uplink : UplinkMessage) : Run :=
  match deduplicateUplink env uplink with
  | [] => ⟨Outcome.returned none, []⟩
  | base :: rest =>
    match base.ProtocolMetadata.Lorawan with
    | none => ⟨Outcome.returned (some Error.nonLoRaWAN), []⟩
    | some lw =>
      match env.UnmarshalBinary base.Payload with
      | Except.error e => ⟨Outcome.returned (some (Error.unmarshal e)), []⟩
      | Except.ok phy =>
        match phy.MACPayload with
        | Payload.other _ => ⟨Outcome.returned (some Error.noMACPayload), []⟩
        | Payload.mac macPayload => resolve env (base :: rest) base lw phy macPayload

/-! ## Observations on a run -/

/-- The messages sent on handler channels, with the channel, among events. -/
def pushedOf (evs : List Event) : List (Chan × DeduplicatedUplinkMessage) :=
  evs.filterMap fun ev =>
    match ev with
    | Event.push h msg => some (h, msg)
    | _ => none

/-- The messages handed to the network server's `Uplink`, among events. -/
def submittedOf (evs : List Event) : List DeduplicatedUplinkMessage :=
  evs.filterMap fun ev =>
    match ev with
    | Event.nsUplink msg => some msg
    | _ => none

/-- The slices handed to `selectBestDownlink`, among events. -/
def selectedOf (evs : List Event) : List (List DownlinkOption) :=
  evs.filterMap fun ev =>
    match ev with
    | Event.selectBest options => some options
    | _ => none

/-- The integrity checks among events, in order. -/
def checksIn (evs : List Event) : List Event :=
  evs.filter fun ev =>
    match ev with
    | Event.validateMIC _ _ _ => true
    | _ => false

/-- The messages a run sends on handler channels, with the channel. -/
def Run.pushed (r : Run) : List (Chan × DeduplicatedUplinkMessage) := pushedOf r.events

/-- The messages a run hands to the network server's `Uplink`. -/
def Run.submitted (r : Run) : List DeduplicatedUplinkMessage := submittedOf r.events

/-- The slices a run hands to `selectBestDownlink`. -/
def Run.selected (r : Run) : List (List DownlinkOption) := selectedOf r.events

/-- The integrity checks a run makes, in order. -/
def Run.checks (r : Run) : List Event := checksIn r.events

/-- The run gets past decoding: the batch is `base :: rest`, the base carries
LoRaWAN metadata `lw`, and its payload decodes to `phy` with MAC payload
`macPayload`. -/
structure Decodes (env : Env) (uplink base : UplinkMessage) (rest : List UplinkMessage)
    (lw : LorawanMetadata) (phy : PHYPayload) (macPayload : MACPayload) : Prop where
  dedup : deduplicateUplink env uplink = base :: rest
  lorawan : base.ProtocolMetadata.Lorawan = some lw
  unmarshal : env.UnmarshalBinary base.Payload = Except.ok phy
  mac : phy.MACPayload = Payload.mac macPayload

/-- The request of lines 54-57 for a decoded MAC payload. -/
def devicesRequest (macPayload : MACPayload) : DevicesRequest :=
  ⟨macPayload.FHDR.DevAddr, macPayload.FHDR.FCnt⟩

/-- The header the loop holds after the candidates `before` all failed. -/
def headerAfter (m : MACPayload) (before : List Device) : MACPayload :=
  before.foldl widen m

/-- The integrity check the loop makes on candidate `c` once the candidates
`before` have been tried before it. -/
def check (env : Env) (phy : PHYPayload) (m : MACPayload) (before : List Device) (c : Device) :
    Except String Bool :=
  env.ValidateMIC (withMAC phy (widen (headerAfter m before) c)) c.NwkSKey

/-- The check events of a loop that tries every candidate of `cs` in order. -/
def checksOf (env : Env) (phy : PHYPayload) : MACPayload → List Device → List Event
  | _, [] => []
  | m, c :: cs =>
    Event.validateMIC (withMAC phy (widen m c)) c.NwkSKey
        (env.ValidateMIC (withMAC phy (widen m c)) c.NwkSKey)
      :: checksOf env phy (widen m c) cs

/-- The contract of `sort.Sort` for a given `Less`: the slice is permuted, and
afterwards no element is `Less` than one before it. -/
def SortsBy (sort : (DownlinkOption → DownlinkOption → Bool) → List DownlinkOption → List DownlinkOption)
    (less : DownlinkOption → DownlinkOption → Bool) : Prop :=
  ∀ l, (sort less l).Perm l ∧ (sort less l).Pairwise (fun a b => less b a = false)

/-! ## A concrete broker for the scenarios -/

/-- A toy codec: the first byte is the on-air frame counter, the rest is the
integrity code; the device address is fixed. -/
def exUnmarshal : Bytes → Except String PHYPayload
  | [] => Except.error "lorawan: at least 1 byte of data is expected"
  | f :: mic => Except.ok ⟨64, Payload.mac ⟨⟨[38, 1, 2, 3], f⟩, []⟩, mic⟩

/-- A toy integrity check: the code is valid for a key when it is the key
followed by the frame counter of the header. -/
def exValidateMIC (phy : PHYPayload) (key : Bytes) : Except String Bool :=
  match phy.MACPayload with
  | Payload.mac m => Except.ok (decide (phy.MIC = key ++ [m.FHDR.FCnt]))
  | Payload.other _ => Except.error "lorawan: MACPayload expected"

/-- A broker whose deduplicator hands this call the batch `dups` and whose
network server knows the devices `results`; one application, one handler. -/
def exEnv (dups : List UplinkMessage) (results : List Device) : Env where
  now := 1000
  Sum := fun _ => "d41d8cd9"
  Deduplicate := fun _ _ => dups
  UnmarshalBinary := exUnmarshal
  GetDevices := fun _ => Except.ok results
  ValidateMIC := exValidateMIC
  sortSort := fun less l => l.insertionSort (fun a b => less b a = false)
  Uplink := fun msg => Except.ok msg
  applicationsGet := fun _ => Except.ok ⟨"handler-1"⟩
  getHandler := fun id => if id = "handler-1" then Except.ok 7 else Except.error "handler not found"

/-- An uplink with on-air counter `fcnt`, an integrity code made with `key`,
received by gateway `gw` with downlink options `opts`. -/
def exUplink (fcnt : Nat) (key : Bytes) (gw : Nat) (opts : List DownlinkOption) : UplinkMessage :=
  ⟨fcnt :: (key ++ [fcnt]), ⟨some ⟨0, "SF7BW125"⟩⟩, ⟨[gw], 0⟩, opts⟩

/-- A device with session key `[7]` in 16-bit mode, stored counter 0, replay
check enabled. -/
def exDevice : Device := ⟨[1], [2], [7], 0, 5, false, false⟩

/-- A downlink option proposed through router A. -/
def optA : DownlinkOption := ⟨"routerA:1", 10⟩

/-- A downlink option proposed through router B. -/
def optB : DownlinkOption := ⟨"routerB:2", 30⟩

/-- The decoded frame of `exUplink fcnt key _ _`. -/
def exPHY (fcnt : Nat) (key : Bytes) : PHYPayload :=
  ⟨64, Payload.mac ⟨⟨[38, 1, 2, 3], fcnt⟩, []⟩, key ++ [fcnt]⟩

/-- The decoded MAC payload of `exUplink fcnt _ _ _`. -/
def exMAC (fcnt : Nat) : MACPayload := ⟨⟨[38, 1, 2, 3], fcnt⟩, []⟩

/-- A device with session key `[9]` in 16-bit mode, sharing the address. -/
def devX : Device := ⟨[1], [3], [9], 0, 5, false, false⟩

/-- A second device with session key `[7]`, behind `exDevice` in the list. -/
def devY : Device := ⟨[4], [5], [7], 0, 5, false, false⟩

/-- A device with session key `[9]` in 32-bit mode, stored counter 65540,
resolved counter 65541. -/
def devW : Device := ⟨[1], [6], [9], 65540, 65541, false, true⟩

/-- Whether an event is an integrity check that returned an error. -/
def Event.isCheckError : Event → Bool
  | Event.validateMIC _ _ (Except.error _) => true
  | _ => false

/-! ## Lemmas on the stages -/

theorem deduplicateUplink_eq (env : Env) (u : UplinkMessage) :
    deduplicateUplink env u = env.Deduplicate (env.Sum u.Payload) u := by
  have key : ∀ (l acc : List UplinkMessage),
      l.foldl (fun uplinks d => uplinks ++ [d]) acc = acc ++ l := by
    intro l
    induction l with
    | nil => intro acc; simp
    | cons x xs ih => intro acc; simp [ih]
  unfold deduplicateUplink
  by_cases h : (env.Deduplicate (env.Sum u.Payload) u).length = 0
  · simp [h, List.length_eq_zero.mp h]
  · simp [h, key]

theorem HandleUplink_of_decodes {env : Env} {uplink base : UplinkMessage}
    {rest : List UplinkMessage} {lw : LorawanMetadata} {phy : PHYPayload} {macPayload : MACPayload}
    (h : Decodes env uplink base rest lw phy macPayload) :
    HandleUplink env uplink = resolve env (base :: rest) base lw phy macPayload := by
  unfold HandleUplink
  simp [h.dedup, h.lorawan, h.unmarshal, h.mac]

theorem subU32_of_le {a b : Nat} (hab : b ≤ a) (ha : a < 2 ^ 32) : subU32 a b = a - b := by
  unfold subU32
  have : a + 2 ^ 32 - b = (a - b) + 2 ^ 32 := by omega
  rw [this, Nat.add_mod_right]
  exact Nat.mod_eq_of_lt (by omega)

theorem invalidFCnt_iff (d : Device) (c : Nat) (hc : c < 2 ^ 32) :
    invalidFCnt d c = true ↔
      d.DisableFCntCheck = false ∧ (c < d.StoredFCnt ∨ (c : Int) - (d.StoredFCnt : Int) > 16384) := by
  unfold invalidFCnt maxFCntGap
  cases hdis : d.DisableFCntCheck
  · by_cases hlt : c < d.StoredFCnt
    · simp [hlt]
    · have hle : d.StoredFCnt ≤ c := Nat.le_of_not_lt hlt
      simp [hlt, subU32_of_le hle hc]
      omega
  · simp

theorem pushedOf_append (a b : List Event) : pushedOf (a ++ b) = pushedOf a ++ pushedOf b := by
  simp [pushedOf, List.filterMap_append]

theorem submittedOf_append (a b : List Event) :
    submittedOf (a ++ b) = submittedOf a ++ submittedOf b := by
  simp [submittedOf, List.filterMap_append]

theorem selectedOf_append (a b : List Event) :
    selectedOf (a ++ b) = selectedOf a ++ selectedOf b := by
  simp [selectedOf, List.filterMap_append]

theorem checksIn_append (a b : List Event) : checksIn (a ++ b) = checksIn a ++ checksIn b := by
  simp [checksIn, List.filter_append]

/-- The delivery stage appends its own events to those made before it. -/
theorem deliver_events (env : Env) (d : Device) (msg : DeduplicatedUplinkMessage)
    (pre : List Event) :
    (deliver env d msg pre).events = pre ++ (deliver env d msg []).events ∧
      (deliver env d msg pre).out = (deliver env d msg []).out := by
  unfold deliver
  split
  · simp
  · split
    · simp
    · split <;> simp

/-- What the delivery stage does on its own: one submission, no selection, no
check, one send exactly when it returns nil; it never panics. -/
theorem deliver_nil (env : Env) (d : Device) (msg : DeduplicatedUplinkMessage) :
    submittedOf (deliver env d msg []).events = [msg] ∧
      selectedOf (deliver env d msg []).events = [] ∧
      checksIn (deliver env d msg []).events = [] ∧
      (pushedOf (deliver env d msg []).events).length =
        (if (deliver env d msg []).out = Outcome.returned none then 1 else 0) ∧
      (∃ err, (deliver env d msg []).out = Outcome.returned err ∧
        err ≠ some Error.ErrInvalidFCnt ∧ err ≠ some Error.ErrNotFound ∧
        err ≠ some Error.ErrNoMatch) := by
  cases h1 : env.Uplink msg with
  | error e => simp [deliver, h1, submittedOf, selectedOf, checksIn, pushedOf]
  | ok msg1 =>
    cases h2 : env.applicationsGet d.AppEui with
    | error e => simp [deliver, h1, h2, submittedOf, selectedOf, checksIn, pushedOf]
    | ok application =>
      cases h3 : env.getHandler application.HandlerID with
      | error e => simp [deliver, h1, h2, h3, submittedOf, selectedOf, checksIn, pushedOf]
      | ok handler => simp [deliver, h1, h2, h3, submittedOf, selectedOf, checksIn, pushedOf]

/-- The matching loop only makes integrity checks. -/
theorem findDevice_only_checks (env : Env) (phy : PHYPayload) (cs : List Device) :
    ∀ m, pushedOf (findDevice env phy m cs).events = [] ∧
      submittedOf (findDevice env phy m cs).events = [] ∧
      selectedOf (findDevice env phy m cs).events = [] ∧
      checksIn (findDevice env phy m cs).events = (findDevice env phy m cs).events := by
  induction cs with
  | nil => intro m; simp [findDevice, pushedOf, submittedOf, selectedOf, checksIn]
  | cons c cs ih =>
    intro m
    obtain ⟨i1, i2, i3, i4⟩ := ih (widen m c)
    cases hr : env.ValidateMIC (withMAC phy (widen m c)) c.NwkSKey with
    | error e => simp [findDevice, hr, pushedOf, submittedOf, selectedOf, checksIn]
    | ok b =>
      cases b with
      | true => simp [findDevice, hr, pushedOf, submittedOf, selectedOf, checksIn]
      | false =>
        simp only [pushedOf, submittedOf, selectedOf, checksIn] at i1 i2 i3 i4
        simp [findDevice, hr, pushedOf, submittedOf, selectedOf, checksIn, i1, i2, i3, i4]

/-- The merge loop maps and concatenates in arrival order. -/
theorem collect_eq (duplicates : List UplinkMessage) :
    collect duplicates =
      (duplicates.map (fun d => d.GatewayMetadata),
        (duplicates.map (fun d => d.DownlinkOptions)).flatten) := by
  have key : ∀ (l : List UplinkMessage) (a : List RxMetadata) (b : List DownlinkOption),
      l.foldl (fun acc duplicate =>
          (acc.1 ++ [duplicate.GatewayMetadata], acc.2 ++ duplicate.DownlinkOptions)) (a, b) =
        (a ++ l.map (fun d => d.GatewayMetadata),
          b ++ (l.map (fun d => d.DownlinkOptions)).flatten) := by
    intro l
    induction l with
    | nil => intro a b; simp
    | cons x xs ih => intro a b; simp [ih]
  unfold collect
  simpa using key duplicates [] []

theorem assemble_no_options (env : Env) (duplicates : List UplinkMessage) (base : UplinkMessage)
    (lw : LorawanMetadata) (d : Device) (pre : List Event) (h : (collect duplicates).2 = []) :
    assemble env duplicates base lw d pre =
      deliver env d (buildUplink env base lw d (collect duplicates).1 none) pre := by
  simp [assemble, h]

theorem assemble_best (env : Env) (duplicates : List UplinkMessage) (base : UplinkMessage)
    (lw : LorawanMetadata) (d : Device) (pre : List Event) (best : DownlinkOption)
    (h : (collect duplicates).2 ≠ [])
    (hb : selectBestDownlink env (collect duplicates).2 = some best) :
    assemble env duplicates base lw d pre =
      deliver env d (buildUplink env base lw d (collect duplicates).1 (some ⟨best⟩))
        (pre ++ [Event.selectBest (collect duplicates).2]) := by
  have hl : 0 < (collect duplicates).2.length := List.length_pos.mpr h
  simp [assemble, hl, hb]

theorem assemble_panic (env : Env) (duplicates : List UplinkMessage) (base : UplinkMessage)
    (lw : LorawanMetadata) (d : Device) (pre : List Event)
    (h : (collect duplicates).2 ≠ [])
    (hb : selectBestDownlink env (collect duplicates).2 = none) :
    assemble env duplicates base lw d pre =
      ⟨Outcome.panicked, pre ++ [Event.selectBest (collect duplicates).2]⟩ := by
  have hl : 0 < (collect duplicates).2.length := List.length_pos.mpr h
  simp [assemble, hl, hb]

/-- A found device means the candidate list was not empty. -/
theorem findDevice_found_ne_nil {env : Env} {phy : PHYPayload} {m : MACPayload}
    {cs : List Device} {d : Device} (h : (findDevice env phy m cs).res = Match.found d) :
    cs ≠ [] := by
  intro hc
  subst hc
  simp [findDevice] at h

theorem resolve_found (env : Env) (duplicates : List UplinkMessage) (base : UplinkMessage)
    (lw : LorawanMetadata) (phy : PHYPayload) (m : MACPayload) (results : List Device)
    (d : Device) (hg : env.GetDevices (devicesRequest m) = Except.ok results)
    (hf : (findDevice env phy m results).res = Match.found d) :
    resolve env duplicates base lw phy m =
      if invalidFCnt d (findDevice env phy m results).macPayload.FHDR.FCnt then
        ⟨Outcome.returned (some Error.ErrInvalidFCnt),
          Event.getDevices (devicesRequest m) :: (findDevice env phy m results).events⟩
      else
        assemble env duplicates base lw d
          (Event.getDevices (devicesRequest m) :: (findDevice env phy m results).events) := by
  have hne : results.length ≠ 0 := by
    have := findDevice_found_ne_nil hf
    simpa using this
  unfold devicesRequest at hg
  simp [resolve, devicesRequest, hg, hne, hf]

/-- A run that decodes, finds a device and passes the anti-replay check is the
assembly stage run after the lookup and the checks. -/
theorem HandleUplink_passes {env : Env} {uplink base : UplinkMessage}
    {rest : List UplinkMessage} {lw : LorawanMetadata} {phy : PHYPayload} {macPayload : MACPayload}
    (results : List Device) (d : Device)
    (hdec : Decodes env uplink base rest lw phy macPayload)
    (hg : env.GetDevices (devicesRequest macPayload) = Except.ok results)
    (hf : (findDevice env phy macPayload results).res = Match.found d)
    (hv : invalidFCnt d (findDevice env phy macPayload results).macPayload.FHDR.FCnt = false) :
    HandleUplink env uplink =
      assemble env (base :: rest) base lw d
        (Event.getDevices (devicesRequest macPayload) ::
          (findDevice env phy macPayload results).events) := by
  rw [HandleUplink_of_decodes hdec, resolve_found env _ base lw phy macPayload results d hg hf]
  simp [hv]

/-- The assembly stage never returns one of the three sentinel errors. -/
theorem assemble_out (env : Env) (duplicates : List UplinkMessage) (base : UplinkMessage)
    (lw : LorawanMetadata) (d : Device) (pre : List Event) :
    (assemble env duplicates base lw d pre).out ≠ Outcome.returned (some Error.ErrInvalidFCnt) ∧
      (assemble env duplicates base lw d pre).out ≠ Outcome.returned (some Error.ErrNotFound) ∧
      (assemble env duplicates base lw d pre).out ≠ Outcome.returned (some Error.ErrNoMatch) := by
  have hdel : ∀ msg pre1,
      (deliver env d msg pre1).out ≠ Outcome.returned (some Error.ErrInvalidFCnt) ∧
      (deliver env d msg pre1).out ≠ Outcome.returned (some Error.ErrNotFound) ∧
      (deliver env d msg pre1).out ≠ Outcome.returned (some Error.ErrNoMatch) := by
    intro msg pre1
    obtain ⟨_, _, _, _, err, he, h1, h2, h3⟩ := deliver_nil env d msg
    rw [(deliver_events env d msg pre1).2, he]
    refine ⟨?_, ?_, ?_⟩ <;> intro h <;> injection h with h <;> contradiction
  by_cases h : (collect duplicates).2 = []
  · rw [assemble_no_options env duplicates base lw d pre h]
    exact hdel _ _
  · cases hb : selectBestDownlink env (collect duplicates).2 with
    | none =>
      rw [assemble_panic env duplicates base lw d pre h hb]
      simp
    | some best =>
      rw [assemble_best env duplicates base lw d pre best h hb]
      exact hdel _ _

/-! ## The anti-replay decision -/

/-- C1: in a run that reaches the anti-replay step with matched device `d` and
resolved frame counter `c` (the counter held in the decoded header after
matching, a `uint32`), `HandleUplink` returns `ErrInvalidFCnt` if and only if
`d.DisableFCntCheck` is false and `c < d.StoredFCnt` or `c - d.StoredFCnt > 16384`
over the integers; equivalently it does not return it exactly when checking is
disabled or `StoredFCnt ≤ c ≤ StoredFCnt + 16384`. -/
theorem HandleUplink_antiReplay (env : Env) (uplink base : UplinkMessage)
    (rest : List UplinkMessage) (lw : LorawanMetadata) (phy : PHYPayload) (macPayload : MACPayload)
    (results : List Device) (d : Device) (c : Nat)
    (hdec : Decodes env uplink base rest lw phy macPayload)
    (hg : env.GetDevices (devicesRequest macPayload) = Except.ok results)
    (hf : (findDevice env phy macPayload results).res = Match.found d)
    (hc : (findDevice env phy macPayload results).macPayload.FHDR.FCnt = c)
    (hu32 : c < 2 ^ 32) :
    ((HandleUplink env uplink).out = Outcome.returned (some Error.ErrInvalidFCnt) ↔
        d.DisableFCntCheck = false ∧
          (c < d.StoredFCnt ∨ (c : Int) - (d.StoredFCnt : Int) > 16384)) ∧
      ((HandleUplink env uplink).out ≠ Outcome.returned (some Error.ErrInvalidFCnt) ↔
        d.DisableFCntCheck = true ∨ (d.StoredFCnt ≤ c ∧ c ≤ d.StoredFCnt + 16384)) := by
  have hout : (HandleUplink env uplink).out = Outcome.returned (some Error.ErrInvalidFCnt) ↔
      invalidFCnt d c = true := by
    rw [HandleUplink_of_decodes hdec, resolve_found env _ base lw phy macPayload results d hg hf, hc]
    cases hv : invalidFCnt d c
    · simpa using (assemble_out env (base :: rest) base lw d _).1
    · simp
  have hiff := invalidFCnt_iff d c hu32
  refine ⟨hout.trans hiff, ?_⟩
  refine (not_congr (hout.trans hiff)).trans ?_
  cases hdis : d.DisableFCntCheck
  · simp
    omega
  · simp

/-- C1, scenario: stored counter 100, checking enabled, resolved counter 99 is
rejected with `ErrInvalidFCnt`. -/
theorem HandleUplink_antiReplay_witness :
    (HandleUplink (exEnv [exUplink 99 [7] 1 []] [⟨[1], [2], [7], 100, 99, false, false⟩])
      (exUplink 99 [7] 1 [])).out = Outcome.returned (some Error.ErrInvalidFCnt) :=
  (HandleUplink_antiReplay (exEnv [exUplink 99 [7] 1 []] [⟨[1], [2], [7], 100, 99, false, false⟩])
    (exUplink 99 [7] 1 []) (exUplink 99 [7] 1 []) [] ⟨0, "SF7BW125"⟩
    ⟨64, Payload.mac ⟨⟨[38, 1, 2, 3], 99⟩, []⟩, [7, 99]⟩ ⟨⟨[38, 1, 2, 3], 99⟩, []⟩
    [⟨[1], [2], [7], 100, 99, false, false⟩] ⟨[1], [2], [7], 100, 99, false, false⟩ 99
    ⟨rfl, rfl, rfl, rfl⟩ rfl (by decide) (by decide) (by decide)).1.mpr ⟨rfl, Or.inl (by decide)⟩

/-! ## Duplicates and the single forward -/

/-- C4: when the deduplicator returns an empty list to this call, `HandleUplink`
returns nil and does nothing else: the run has no event at all (no candidate
lookup, no network-server call, no application lookup, no send). -/
theorem HandleUplink_absorbs_duplicate (env : Env) (uplink : UplinkMessage)
    (h : env.Deduplicate (env.Sum uplink.Payload) uplink = []) :
    HandleUplink env uplink = ⟨Outcome.returned none, []⟩ := by
  unfold HandleUplink
  rw [deduplicateUplink_eq, h]

/-- C4, instance: a call that is not the flush winner of its window. -/
theorem HandleUplink_absorbs_duplicate_witness :
    HandleUplink (exEnv [] []) (exUplink 5 [7] 1 []) = ⟨Outcome.returned none, []⟩ :=
  HandleUplink_absorbs_duplicate (exEnv [] []) (exUplink 5 [7] 1 []) rfl

/-- Sends of the delivery stage: one exactly when it returns nil. -/
theorem deliver_pushed (env : Env) (d : Device) (msg : DeduplicatedUplinkMessage)
    (pre : List Event) (hpre : pushedOf pre = []) :
    (pushedOf (deliver env d msg pre).events).length =
      (if (deliver env d msg pre).out = Outcome.returned none then 1 else 0) := by
  obtain ⟨_, _, _, hp, _⟩ := deliver_nil env d msg
  rw [(deliver_events env d msg pre).1, (deliver_events env d msg pre).2, pushedOf_append, hpre]
  simpa using hp

/-- Sends of the assembly stage: one exactly when it returns nil. -/
theorem assemble_pushed (env : Env) (duplicates : List UplinkMessage) (base : UplinkMessage)
    (lw : LorawanMetadata) (d : Device) (pre : List Event) (hpre : pushedOf pre = []) :
    (pushedOf (assemble env duplicates base lw d pre).events).length =
      (if (assemble env duplicates base lw d pre).out = Outcome.returned none then 1 else 0) := by
  by_cases h : (collect duplicates).2 = []
  · rw [assemble_no_options env duplicates base lw d pre h]
    exact deliver_pushed env d _ pre hpre
  · cases hb : selectBestDownlink env (collect duplicates).2 with
    | none =>
      rw [assemble_panic env duplicates base lw d pre h hb]
      simp [pushedOf_append, hpre]
      simp [pushedOf]
    | some best =>
      rw [assemble_best env duplicates base lw d pre best h hb]
      apply deliver_pushed
      rw [pushedOf_append, hpre]
      simp [pushedOf]

/-- Sends of the resolution stage: one exactly when it returns nil. -/
theorem resolve_pushed (env : Env) (duplicates : List UplinkMessage) (base : UplinkMessage)
    (lw : LorawanMetadata) (phy : PHYPayload) (m : MACPayload) :
    (pushedOf (resolve env duplicates base lw phy m).events).length =
      (if (resolve env duplicates base lw phy m).out = Outcome.returned none then 1 else 0) := by
  cases hg : env.GetDevices (devicesRequest m) with
  | error e =>
    unfold devicesRequest at hg
    simp [resolve, hg, pushedOf]
  | ok results =>
    have hpre : pushedOf (Event.getDevices (devicesRequest m) ::
        (findDevice env phy m results).events) = [] := by
      have h0 := (findDevice_only_checks env phy results m).1
      simp only [pushedOf] at h0
      simp [pushedOf, h0]
    cases hres : (findDevice env phy m results).res with
    | found d =>
      rw [resolve_found env duplicates base lw phy m results d hg hres]
      cases hv : invalidFCnt d (findDevice env phy m results).macPayload.FHDR.FCnt
      · simpa using assemble_pushed env duplicates base lw d _ hpre
      · simp [hpre]
    | failed e =>
      unfold devicesRequest at hg hpre
      by_cases hl : results.length = 0
      · simp [resolve, hg, hl, pushedOf]
      · simp [resolve, hg, hl, hres, hpre]
    | noMatch =>
      unfold devicesRequest at hg hpre
      by_cases hl : results.length = 0
      · simp [resolve, hg, hl, pushedOf]
      · simp [resolve, hg, hl, hres, hpre]

/-- C5: every run of `HandleUplink` sends at most one message on at most one
handler channel; it sends exactly one if and only if it returns nil with a
non-empty deduplicated batch; and whenever it returns a non-nil error nothing is
sent on any handler channel. -/
theorem HandleUplink_single_forward (env : Env) (uplink : UplinkMessage) :
    (HandleUplink env uplink).pushed.length ≤ 1 ∧
      ((HandleUplink env uplink).pushed.length = 1 ↔
        (HandleUplink env uplink).out = Outcome.returned none ∧
          deduplicateUplink env uplink ≠ []) ∧
      (∀ e, (HandleUplink env uplink).out = Outcome.returned (some e) →
        (HandleUplink env uplink).pushed = []) := by
  have hlen : (HandleUplink env uplink).pushed.length =
      (if (HandleUplink env uplink).out = Outcome.returned none ∧
        deduplicateUplink env uplink ≠ [] then 1 else 0) := by
    unfold Run.pushed HandleUplink
    cases hd : deduplicateUplink env uplink with
    | nil => simp [pushedOf]
    | cons base rest =>
      cases hl : base.ProtocolMetadata.Lorawan with
      | none => simp [hl, pushedOf]
      | some lw =>
        cases hu : env.UnmarshalBinary base.Payload with
        | error e => simp [hl, hu, pushedOf]
        | ok phy =>
          cases hm : phy.MACPayload with
          | other raw => simp [hl, hu, hm, pushedOf]
          | mac m => simpa [hl, hu, hm] using resolve_pushed env (base :: rest) base lw phy m
  refine ⟨?_, ?_, ?_⟩
  · rw [hlen]; split <;> simp
  · rw [hlen]; split <;> simp_all
  · intro e he
    have : (HandleUplink env uplink).pushed.length = 0 := by
      rw [hlen, he]; simp
    exact List.length_eq_zero.mp this

/-! ## Assembly: merged lists, injected counter, downlink template -/

/-- The slices the assembly stage hands to the selector: the merged options,
once, when there are any. -/
theorem assemble_selected (env : Env) (duplicates : List UplinkMessage) (base : UplinkMessage)
    (lw : LorawanMetadata) (d : Device) (pre : List Event) (hpre : selectedOf pre = []) :
    selectedOf (assemble env duplicates base lw d pre).events =
      (if (collect duplicates).2 = [] then [] else [(collect duplicates).2]) := by
  have hdel : ∀ msg pre1, selectedOf (deliver env d msg pre1).events = selectedOf pre1 := by
    intro msg pre1
    rw [(deliver_events env d msg pre1).1, selectedOf_append, (deliver_nil env d msg).2.1]
    simp
  by_cases h : (collect duplicates).2 = []
  · rw [assemble_no_options env duplicates base lw d pre h, hdel, hpre]
    simp [h]
  · cases hb : selectBestDownlink env (collect duplicates).2 with
    | none =>
      rw [assemble_panic env duplicates base lw d pre h hb]
      simp [selectedOf_append, hpre, h]
      simp [selectedOf]
    | some best =>
      rw [assemble_best env duplicates base lw d pre best h hb, hdel, selectedOf_append, hpre]
      simp [h]
      simp [selectedOf]

/-- What the assembly stage submits: nothing if the selector panics, otherwise
the one message built from the merged metadata, with the template the selector
gave. -/
theorem assemble_submitted (env : Env) (duplicates : List UplinkMessage) (base : UplinkMessage)
    (lw : LorawanMetadata) (d : Device) (pre : List Event) (hpre : submittedOf pre = []) :
    ((assemble env duplicates base lw d pre).out = Outcome.panicked ∧
        submittedOf (assemble env duplicates base lw d pre).events = [] ∧
        (collect duplicates).2 ≠ [] ∧ selectBestDownlink env (collect duplicates).2 = none) ∨
      (∃ tmpl, (assemble env duplicates base lw d pre).out ≠ Outcome.panicked ∧
        submittedOf (assemble env duplicates base lw d pre).events =
          [buildUplink env base lw d (collect duplicates).1 tmpl] ∧
        (((collect duplicates).2 = [] ∧ tmpl = none) ∨
          ((collect duplicates).2 ≠ [] ∧
            ∃ best, selectBestDownlink env (collect duplicates).2 = some best ∧
              tmpl = some ⟨best⟩))) := by
  have hdel : ∀ msg pre1, submittedOf pre1 = [] →
      (deliver env d msg pre1).out ≠ Outcome.panicked ∧
        submittedOf (deliver env d msg pre1).events = [msg] := by
    intro msg pre1 h1
    obtain ⟨hs, _, _, _, err, he, _⟩ := deliver_nil env d msg
    rw [(deliver_events env d msg pre1).1, (deliver_events env d msg pre1).2, submittedOf_append,
      h1, hs, he]
    simp
  by_cases h : (collect duplicates).2 = []
  · right
    refine ⟨none, ?_, ?_, Or.inl ⟨h, rfl⟩⟩
    · rw [assemble_no_options env duplicates base lw d pre h]
      exact (hdel _ pre hpre).1
    · rw [assemble_no_options env duplicates base lw d pre h]
      exact (hdel _ pre hpre).2
  · cases hb : selectBestDownlink env (collect duplicates).2 with
    | none =>
      left
      rw [assemble_panic env duplicates base lw d pre h hb]
      refine ⟨rfl, ?_, h, rfl⟩
      simp [submittedOf_append, hpre]
      simp [submittedOf]
    | some best =>
      right
      have hpre1 : submittedOf (pre ++ [Event.selectBest (collect duplicates).2]) = [] := by
        rw [submittedOf_append, hpre]
        simp [submittedOf]
      refine ⟨some ⟨best⟩, ?_, ?_, Or.inr ⟨h, best, rfl, rfl⟩⟩
      · rw [assemble_best env duplicates base lw d pre best h hb]
        exact (hdel _ _ hpre1).1
      · rw [assemble_best env duplicates base lw d pre best h hb]
        exact (hdel _ _ hpre1).2

/-- Before the assembly stage nothing is submitted and nothing selected. -/
theorem events_before_assembly (env : Env) (phy : PHYPayload) (m : MACPayload) (results : List Device) :
    submittedOf (Event.getDevices (devicesRequest m) :: (findDevice env phy m results).events) = [] ∧
      selectedOf (Event.getDevices (devicesRequest m) :: (findDevice env phy m results).events)
        = [] := by
  obtain ⟨_, h2, h3, _⟩ := findDevice_only_checks env phy results m
  simp only [submittedOf, selectedOf] at h2 h3
  constructor
  · simp [submittedOf, h2]
  · simp [selectedOf, h3]

/-- A selector whose sort permutes the slice answers on every non-empty slice,
with an element of the slice. -/
theorem selectBestDownlink_mem (env : Env)
    (hperm : ∀ l, (env.sortSort ByScore.Less l).Perm l) (options : List DownlinkOption)
    (hne : options ≠ []) :
    ∃ best, selectBestDownlink env options = some best ∧ best ∈ options := by
  unfold selectBestDownlink
  have hp := hperm options
  cases hs : env.sortSort ByScore.Less options with
  | nil =>
    rw [hs] at hp
    exact absurd (List.Perm.eq_nil (List.Perm.symm hp)) hne
  | cons a t =>
    refine ⟨a, rfl, ?_⟩
    apply (List.Perm.mem_iff hp).mp
    rw [hs]
    exact List.mem_cons_self a t

/-- A run that passes matching and the anti-replay check: what it hands to the
selector, and what it submits to the network server. -/
theorem HandleUplink_assembled {env : Env} {uplink base : UplinkMessage}
    {rest : List UplinkMessage} {lw : LorawanMetadata} {phy : PHYPayload} {macPayload : MACPayload}
    (results : List Device) (d : Device)
    (hdec : Decodes env uplink base rest lw phy macPayload)
    (hg : env.GetDevices (devicesRequest macPayload) = Except.ok results)
    (hf : (findDevice env phy macPayload results).res = Match.found d)
    (hv : invalidFCnt d (findDevice env phy macPayload results).macPayload.FHDR.FCnt = false) :
    (HandleUplink env uplink).selected =
        (if ((base :: rest).map (fun u => u.DownlinkOptions)).flatten = [] then []
          else [((base :: rest).map (fun u => u.DownlinkOptions)).flatten]) ∧
      (((HandleUplink env uplink).out = Outcome.panicked ∧
          (HandleUplink env uplink).submitted = [] ∧
          ((base :: rest).map (fun u => u.DownlinkOptions)).flatten ≠ [] ∧
          selectBestDownlink env ((base :: rest).map (fun u => u.DownlinkOptions)).flatten = none) ∨
        (∃ tmpl, (HandleUplink env uplink).out ≠ Outcome.panicked ∧
          (HandleUplink env uplink).submitted =
            [buildUplink env base lw d ((base :: rest).map (fun u => u.GatewayMetadata)) tmpl] ∧
          ((((base :: rest).map (fun u => u.DownlinkOptions)).flatten = [] ∧ tmpl = none) ∨
            (((base :: rest).map (fun u => u.DownlinkOptions)).flatten ≠ [] ∧
              ∃ best, selectBestDownlink env
                  ((base :: rest).map (fun u => u.DownlinkOptions)).flatten = some best ∧
                tmpl = some ⟨best⟩)))) := by
  have hrun := HandleUplink_passes results d hdec hg hf hv
  obtain ⟨hp1, hp2⟩ := events_before_assembly env phy macPayload results
  have hsel := assemble_selected env (base :: rest) base lw d _ hp2
  have hsub := assemble_submitted env (base :: rest) base lw d _ hp1
  rw [collect_eq] at hsel hsub
  unfold Run.selected Run.submitted
  rw [hrun]
  refine ⟨hsel, ?_⟩
  rcases hsub with ⟨h1, h2, h3, h4⟩ | ⟨tmpl, h1, h2, h3⟩
  · exact Or.inl ⟨h1, h2, h3, h4⟩
  · exact Or.inr ⟨tmpl, h1, h2, h3⟩

/-- One turn of the matching loop whose check returns an error. -/
theorem findDevice_cons_error (env : Env) (phy : PHYPayload) (m : MACPayload) (c : Device)
    (cs : List Device) (e : String)
    (hr : env.ValidateMIC (withMAC phy (widen m c)) c.NwkSKey = Except.error e) :
    findDevice env phy m (c :: cs) =
      ⟨Match.failed e, widen m c,
        [Event.validateMIC (withMAC phy (widen m c)) c.NwkSKey (Except.error e)]⟩ := by
  simp [findDevice, hr]

/-- One turn of the matching loop whose check succeeds. -/
theorem findDevice_cons_true (env : Env) (phy : PHYPayload) (m : MACPayload) (c : Device)
    (cs : List Device)
    (hr : env.ValidateMIC (withMAC phy (widen m c)) c.NwkSKey = Except.ok true) :
    findDevice env phy m (c :: cs) =
      ⟨Match.found c, widen m c,
        [Event.validateMIC (withMAC phy (widen m c)) c.NwkSKey (Except.ok true)]⟩ := by
  simp [findDevice, hr]

/-- One turn of the matching loop whose check fails: the loop goes on with the
header as this candidate left it. -/
theorem findDevice_cons_false (env : Env) (phy : PHYPayload) (m : MACPayload) (c : Device)
    (cs : List Device)
    (hr : env.ValidateMIC (withMAC phy (widen m c)) c.NwkSKey = Except.ok false) :
    findDevice env phy m (c :: cs) =
      ⟨(findDevice env phy (widen m c) cs).res, (findDevice env phy (widen m c) cs).macPayload,
        Event.validateMIC (withMAC phy (widen m c)) c.NwkSKey (Except.ok false) ::
          (findDevice env phy (widen m c) cs).events⟩ := by
  simp [findDevice, hr]

/-- The device the loop finds was checked last, under the header the loop ends
with, and that header carries the device's `FullFCnt` when the device is in
32-bit mode. -/
theorem findDevice_found (env : Env) (phy : PHYPayload) (d : Device) (cs : List Device) :
    ∀ m, (findDevice env phy m cs).res = Match.found d →
      (findDevice env phy m cs).events.getLast? =
          some (Event.validateMIC (withMAC phy (findDevice env phy m cs).macPayload) d.NwkSKey
            (Except.ok true)) ∧
        (d.Uses32BitFCnt = true →
          (findDevice env phy m cs).macPayload.FHDR.FCnt = d.FullFCnt) := by
  induction cs with
  | nil => intro m h; simp [findDevice] at h
  | cons c cs ih =>
    intro m h
    cases hr : env.ValidateMIC (withMAC phy (widen m c)) c.NwkSKey with
    | error e => rw [findDevice_cons_error env phy m c cs e hr] at h; simp at h
    | ok b =>
      cases b with
      | true =>
        rw [findDevice_cons_true env phy m c cs hr] at h ⊢
        simp at h
        subst h
        refine ⟨by simp, ?_⟩
        intro h32
        simp [widen, h32, setFCnt]
      | false =>
        rw [findDevice_cons_false env phy m c cs hr] at h ⊢
        simp only at h
        obtain ⟨i1, i2⟩ := ih (widen m c) h
        refine ⟨?_, i2⟩
        simp only
        cases hev : (findDevice env phy (widen m c) cs).events with
        | nil => rw [hev] at i1; simp at i1
        | cons e es =>
          rw [hev] at i1
          simpa [List.getLast?_cons_cons] using i1

/-- C6: for a batch of `N ≥ 1` duplicates that passes matching and the
anti-replay check, the `GatewayMetadata` of the message submitted to the network
server has `N` entries, the `i`-th being the `GatewayMetadata` of the `i`-th
duplicate in arrival order, and the slice handed to the selector (exactly once,
when it is non-empty) is the concatenation in arrival order of the duplicates'
`DownlinkOptions`; unless the selector panics, one message is submitted. -/
theorem HandleUplink_merge_in_order (env : Env) (uplink base : UplinkMessage)
    (rest : List UplinkMessage) (lw : LorawanMetadata) (phy : PHYPayload) (macPayload : MACPayload)
    (results : List Device) (d : Device)
    (hdec : Decodes env uplink base rest lw phy macPayload)
    (hg : env.GetDevices (devicesRequest macPayload) = Except.ok results)
    (hf : (findDevice env phy macPayload results).res = Match.found d)
    (hv : invalidFCnt d (findDevice env phy macPayload results).macPayload.FHDR.FCnt = false) :
    (∀ msg ∈ (HandleUplink env uplink).submitted,
        msg.GatewayMetadata.length = (base :: rest).length ∧
          msg.GatewayMetadata = (base :: rest).map (fun u => u.GatewayMetadata) ∧
          ∀ i : Nat, msg.GatewayMetadata[i]? =
            ((base :: rest)[i]?).map (fun u : UplinkMessage => u.GatewayMetadata)) ∧
      (HandleUplink env uplink).selected =
        (if ((base :: rest).map (fun u => u.DownlinkOptions)).flatten = [] then []
          else [((base :: rest).map (fun u => u.DownlinkOptions)).flatten]) ∧
      ((HandleUplink env uplink).out ≠ Outcome.panicked →
        ∃ msg, (HandleUplink env uplink).submitted = [msg]) := by
  obtain ⟨hsel, hsub⟩ := HandleUplink_assembled results d hdec hg hf hv
  refine ⟨?_, hsel, ?_⟩
  · intro msg hmsg
    rcases hsub with ⟨_, h2, _⟩ | ⟨tmpl, _, h2, _⟩
    · rw [h2] at hmsg; simp at hmsg
    · rw [h2] at hmsg
      have hm : msg = buildUplink env base lw d ((base :: rest).map (fun u => u.GatewayMetadata)) tmpl := by
        simpa using hmsg
      subst hm
      refine ⟨by simp [buildUplink], by simp [buildUplink], ?_⟩
      intro i
      simp only [buildUplink, List.getElem?_map]
  · intro hnp
    rcases hsub with ⟨h1, _, _⟩ | ⟨tmpl, _, h2, _⟩
    · exact absurd h1 hnp
    · exact ⟨_, h2⟩

/-- C6, scenario: the same frame from gateway A then gateway B gives one
submitted message whose gateway metadata is `[A, B]`, and the selector gets the
two proposals in that order. -/
theorem HandleUplink_merge_in_order_witness :
    (∃ msg, (HandleUplink (exEnv [exUplink 5 [7] 1 [optA], exUplink 5 [7] 2 [optB]] [exDevice])
          (exUplink 5 [7] 2 [optB])).submitted = [msg] ∧
        msg.GatewayMetadata = [⟨[1], 0⟩, ⟨[2], 0⟩]) ∧
      (HandleUplink (exEnv [exUplink 5 [7] 1 [optA], exUplink 5 [7] 2 [optB]] [exDevice])
          (exUplink 5 [7] 2 [optB])).selected = [[optA, optB]] :=
  have h := HandleUplink_merge_in_order
    (exEnv [exUplink 5 [7] 1 [optA], exUplink 5 [7] 2 [optB]] [exDevice])
    (exUplink 5 [7] 2 [optB]) (exUplink 5 [7] 1 [optA]) [exUplink 5 [7] 2 [optB]]
    ⟨0, "SF7BW125"⟩ (exPHY 5 [7]) (exMAC 5) [exDevice] exDevice
    ⟨rfl, rfl, rfl, rfl⟩ rfl (by decide) (by decide)
  have hex := h.2.2 (by decide)
  ⟨hex.elim fun msg hm => ⟨msg, hm, (h.1 msg (by rw [hm]; exact List.mem_singleton_self msg)).2.1⟩,
    h.2.1⟩

/-- C8, as the code has it: in a run that passes matching and the anti-replay
check, the frame counter written into the LoRaWAN metadata of the message
submitted to the network server is the matched device's `FullFCnt` (the other
metadata fields are kept); the matched device was verified under the counter
held in the header after matching; and when the matched device is in 32-bit
mode that counter is its `FullFCnt`, so the injected, the verified and the
compared counter are the same.  Unless the selector panics, one message is
submitted. -/
theorem HandleUplink_injects_FullFCnt (env : Env) (uplink base : UplinkMessage)
    (rest : List UplinkMessage) (lw : LorawanMetadata) (phy : PHYPayload) (macPayload : MACPayload)
    (results : List Device) (d : Device)
    (hdec : Decodes env uplink base rest lw phy macPayload)
    (hg : env.GetDevices (devicesRequest macPayload) = Except.ok results)
    (hf : (findDevice env phy macPayload results).res = Match.found d)
    (hv : invalidFCnt d (findDevice env phy macPayload results).macPayload.FHDR.FCnt = false) :
    (∀ msg ∈ (HandleUplink env uplink).submitted,
        msg.ProtocolMetadata.Lorawan = some ⟨d.FullFCnt, lw.Other⟩) ∧
      ((HandleUplink env uplink).out ≠ Outcome.panicked →
        ∃ msg, (HandleUplink env uplink).submitted = [msg]) ∧
      (findDevice env phy macPayload results).events.getLast? =
        some (Event.validateMIC (withMAC phy (findDevice env phy macPayload results).macPayload)
          d.NwkSKey (Except.ok true)) ∧
      (d.Uses32BitFCnt = true →
        (findDevice env phy macPayload results).macPayload.FHDR.FCnt = d.FullFCnt) := by
  obtain ⟨_, hsub⟩ := HandleUplink_assembled results d hdec hg hf hv
  obtain ⟨hlast, h32⟩ := findDevice_found env phy d results macPayload hf
  refine ⟨?_, ?_, hlast, h32⟩
  · intro msg hmsg
    rcases hsub with ⟨_, h2, _⟩ | ⟨tmpl, _, h2, _⟩
    · rw [h2] at hmsg; simp at hmsg
    · rw [h2] at hmsg
      have hm : msg = buildUplink env base lw d ((base :: rest).map (fun u => u.GatewayMetadata)) tmpl := by
        simpa using hmsg
      subst hm
      simp [buildUplink]
  · intro hnp
    rcases hsub with ⟨h1, _, _⟩ | ⟨tmpl, _, h2, _⟩
    · exact absurd h1 hnp
    · exact ⟨_, h2⟩

/-- C8, instance: a device in 32-bit mode with `FullFCnt = 65541` sends on-air
counter 5; the frame is verified under 65541, compared as 65541 against the
stored 65540, and 65541 is injected. -/
theorem HandleUplink_injects_FullFCnt_witness :
    ∃ msg, (HandleUplink (exEnv [exUplink 65541 [7] 1 []] [⟨[1], [2], [7], 65540, 65541, false, true⟩])
        (exUplink 65541 [7] 1 [])).submitted = [msg] ∧
      msg.ProtocolMetadata.Lorawan = some ⟨65541, "SF7BW125"⟩ :=
  have h := HandleUplink_injects_FullFCnt
    (exEnv [exUplink 65541 [7] 1 []] [⟨[1], [2], [7], 65540, 65541, false, true⟩])
    (exUplink 65541 [7] 1 []) (exUplink 65541 [7] 1 []) []
    ⟨0, "SF7BW125"⟩ (exPHY 65541 [7]) (exMAC 65541)
    [⟨[1], [2], [7], 65540, 65541, false, true⟩] ⟨[1], [2], [7], 65540, 65541, false, true⟩
    ⟨rfl, rfl, rfl, rfl⟩ rfl (by decide) (by decide)
  (h.2.1 (by decide)).elim fun msg hm =>
    ⟨msg, hm, h.1 msg (by rw [hm]; exact List.mem_singleton_self msg)⟩

/-- C8, counterexample to the claim as stated: a device in 16-bit mode whose
`FullFCnt` is 65541 sends on-air counter 5.  With the replay check disabled
(first run) or enabled with stored counter 3 (second run) the frame is verified
under counter 5, and 5 is what the anti-replay step reads, but the counter
injected into the metadata is 65541. -/
theorem HandleUplink_injected_fcnt_counterexample :
    ((HandleUplink (exEnv [exUplink 5 [7] 1 []] [⟨[1], [2], [7], 100, 65541, true, false⟩])
          (exUplink 5 [7] 1 [])).submitted.map (fun msg => msg.ProtocolMetadata.Lorawan)
        = [some ⟨65541, "SF7BW125"⟩] ∧
      (HandleUplink (exEnv [exUplink 5 [7] 1 []] [⟨[1], [2], [7], 100, 65541, true, false⟩])
          (exUplink 5 [7] 1 [])).checks
        = [Event.validateMIC (exPHY 5 [7]) [7] (Except.ok true)] ∧
      (findDevice (exEnv [exUplink 5 [7] 1 []] [⟨[1], [2], [7], 100, 65541, true, false⟩])
          (exPHY 5 [7]) (exMAC 5) [⟨[1], [2], [7], 100, 65541, true, false⟩]).macPayload.FHDR.FCnt
        = 5) ∧
    ((HandleUplink (exEnv [exUplink 5 [7] 1 []] [⟨[1], [2], [7], 3, 65541, false, false⟩])
          (exUplink 5 [7] 1 [])).submitted.map (fun msg => msg.ProtocolMetadata.Lorawan)
        = [some ⟨65541, "SF7BW125"⟩] ∧
      (HandleUplink (exEnv [exUplink 5 [7] 1 []] [⟨[1], [2], [7], 3, 65541, false, false⟩])
          (exUplink 5 [7] 1 [])).checks
        = [Event.validateMIC (exPHY 5 [7]) [7] (Except.ok true)] ∧
      (findDevice (exEnv [exUplink 5 [7] 1 []] [⟨[1], [2], [7], 3, 65541, false, false⟩])
          (exPHY 5 [7]) (exMAC 5) [⟨[1], [2], [7], 3, 65541, false, false⟩]).macPayload.FHDR.FCnt
        = 5) := by
  decide

/-- C9: in a run that passes the anti-replay check, with a `sort.Sort` that
permutes the slice, `selectBestDownlink` is only called on a non-empty slice and
answers there (element 0 is in range, the run does not panic), one message is
submitted, its `ResponseTemplate` is non-nil if and only if some duplicate of
the batch carries a downlink option, and then its `DownlinkOption` is one of the
options the duplicates proposed. -/
theorem HandleUplink_template (env : Env) (uplink base : UplinkMessage)
    (rest : List UplinkMessage) (lw : LorawanMetadata) (phy : PHYPayload) (macPayload : MACPayload)
    (results : List Device) (d : Device)
    (hperm : ∀ l, (env.sortSort ByScore.Less l).Perm l)
    (hdec : Decodes env uplink base rest lw phy macPayload)
    (hg : env.GetDevices (devicesRequest macPayload) = Except.ok results)
    (hf : (findDevice env phy macPayload results).res = Match.found d)
    (hv : invalidFCnt d (findDevice env phy macPayload results).macPayload.FHDR.FCnt = false) :
    (∀ options ∈ (HandleUplink env uplink).selected,
        options ≠ [] ∧ (selectBestDownlink env options).isSome = true) ∧
      (HandleUplink env uplink).out ≠ Outcome.panicked ∧
      ∃ msg, (HandleUplink env uplink).submitted = [msg] ∧
        (msg.ResponseTemplate ≠ none ↔ ∃ u ∈ base :: rest, u.DownlinkOptions ≠ []) ∧
        (∀ t, msg.ResponseTemplate = some t →
          ∃ u ∈ base :: rest, t.DownlinkOption ∈ u.DownlinkOptions) := by
  obtain ⟨hsel, hsub⟩ := HandleUplink_assembled results d hdec hg hf hv
  have hflat : ((base :: rest).map (fun u => u.DownlinkOptions)).flatten ≠ [] ↔
      ∃ u ∈ base :: rest, u.DownlinkOptions ≠ [] := by
    constructor
    · intro h
      by_contra hcon
      apply h
      simp only [List.flatten_eq_nil_iff, List.mem_map]
      rintro l ⟨u, hu, rfl⟩
      by_contra hne
      exact hcon ⟨u, hu, hne⟩
    · rintro ⟨u, hu, hne⟩ h
      simp only [List.flatten_eq_nil_iff, List.mem_map] at h
      exact hne (h _ ⟨u, hu, rfl⟩)
  obtain ⟨opts, hopts⟩ : ∃ opts, opts = ((base :: rest).map (fun u => u.DownlinkOptions)).flatten :=
    ⟨_, rfl⟩
  rw [← hopts] at hsel hsub hflat
  have hsome : opts ≠ [] → ∃ best, selectBestDownlink env opts = some best ∧ best ∈ opts :=
    selectBestDownlink_mem env hperm opts
  have hnopanic : ¬ (opts ≠ [] ∧ selectBestDownlink env opts = none) := by
    rintro ⟨he, hn⟩
    obtain ⟨best, hb, _⟩ := hsome he
    rw [hb] at hn
    exact Option.noConfusion hn
  rcases hsub with ⟨_, _, he, hn⟩ | ⟨tmpl, hnp, h2, h3⟩
  · exact absurd ⟨he, hn⟩ hnopanic
  · refine ⟨?_, hnp, _, h2, ?_, ?_⟩
    · intro options hopt
      rw [hsel] at hopt
      by_cases he : opts = []
      · rw [if_pos he] at hopt
        exact absurd hopt (List.not_mem_nil options)
      · rw [if_neg he, List.mem_singleton] at hopt
        subst hopt
        obtain ⟨best, hb, _⟩ := hsome he
        exact ⟨he, by rw [hb]; rfl⟩
    · rw [← hflat]
      rcases h3 with ⟨he, ht⟩ | ⟨he, best, _, ht⟩
      · simp [buildUplink, ht, he]
      · simp [buildUplink, ht, he]
    · intro t ht
      rcases h3 with ⟨he, htm⟩ | ⟨he, best, hb, htm⟩
      · simp [buildUplink, htm] at ht
      · obtain ⟨best1, hb1, hmem⟩ := hsome he
        rw [hb] at hb1
        have hbb : best = best1 := Option.some.inj hb1
        subst hbb
        simp only [buildUplink, htm, Option.some.injEq] at ht
        subst ht
        rw [hopts] at hmem
        simp only [List.mem_flatten, List.mem_map] at hmem
        obtain ⟨l, ⟨u, hu, rfl⟩, hin⟩ := hmem
        exact ⟨u, hu, hin⟩

/-- The concrete broker's sort meets the contract of `sort.Sort` for `ByScore`. -/
theorem exEnv_sortsBy (dups : List UplinkMessage) (results : List Device) :
    SortsBy (exEnv dups results).sortSort ByScore.Less := by
  intro l
  haveI : IsTotal DownlinkOption (fun a b => ByScore.Less b a = false) :=
    ⟨fun a b => by simp only [ByScore.Less, decide_eq_false_iff_not]; omega⟩
  haveI : IsTrans DownlinkOption (fun a b => ByScore.Less b a = false) :=
    ⟨fun a b c h1 h2 => by
      simp only [ByScore.Less, decide_eq_false_iff_not] at h1 h2 ⊢; omega⟩
  exact ⟨List.perm_insertionSort _ l, List.sorted_insertionSort _ l⟩

/-- C9, instance: two duplicates proposing one option each; the selector is
called once on the two proposals and the template carries one of them. -/
theorem HandleUplink_template_witness :
    (HandleUplink (exEnv [exUplink 5 [7] 1 [optA], exUplink 5 [7] 2 [optB]] [exDevice])
        (exUplink 5 [7] 2 [optB])).out ≠ Outcome.panicked ∧
      ∃ msg, (HandleUplink (exEnv [exUplink 5 [7] 1 [optA], exUplink 5 [7] 2 [optB]] [exDevice])
          (exUplink 5 [7] 2 [optB])).submitted = [msg] ∧
        (msg.ResponseTemplate ≠ none ↔
          ∃ u ∈ [exUplink 5 [7] 1 [optA], exUplink 5 [7] 2 [optB]], u.DownlinkOptions ≠ []) :=
  have h := HandleUplink_template
    (exEnv [exUplink 5 [7] 1 [optA], exUplink 5 [7] 2 [optB]] [exDevice])
    (exUplink 5 [7] 2 [optB]) (exUplink 5 [7] 1 [optA]) [exUplink 5 [7] 2 [optB]]
    ⟨0, "SF7BW125"⟩ (exPHY 5 [7]) (exMAC 5) [exDevice] exDevice
    (fun l => (exEnv_sortsBy _ _ l).1)
    ⟨rfl, rfl, rfl, rfl⟩ rfl (by decide) (by decide)
  ⟨h.2.1, h.2.2.elim fun msg hm => ⟨msg, hm.1, hm.2.1⟩⟩

/-! ## Downlink selection -/

/-- C7: with `sort.Sort` meeting its contract for `ByScore`, on every non-empty
list `selectBestDownlink` returns an element of the list whose score is at least
the score of every option in it; when the scores are pairwise distinct every
other option scores strictly less, and every permutation of the list gives the
same option. -/
theorem selectBestDownlink_highest (env : Env) (hs : SortsBy env.sortSort ByScore.Less)
    (options : List DownlinkOption) (hne : options ≠ []) :
    ∃ best, selectBestDownlink env options = some best ∧ best ∈ options ∧
      (∀ o ∈ options, o.Score ≤ best.Score) ∧
      (options.Pairwise (fun a b => a.Score ≠ b.Score) →
        (∀ o ∈ options, o ≠ best → o.Score < best.Score) ∧
          ∀ l, l.Perm options → selectBestDownlink env l = some best) := by
  have hmax : ∀ l : List DownlinkOption, l ≠ [] →
      ∃ best, selectBestDownlink env l = some best ∧ best ∈ l ∧
        ∀ o ∈ l, o.Score ≤ best.Score := by
    intro l hl
    obtain ⟨hp, hsorted⟩ := hs l
    unfold selectBestDownlink
    cases hsl : env.sortSort ByScore.Less l with
    | nil =>
      rw [hsl] at hp
      exact absurd (List.Perm.eq_nil (List.Perm.symm hp)) hl
    | cons a t =>
      rw [hsl] at hp hsorted
      refine ⟨a, rfl, (List.Perm.mem_iff hp).mp (List.mem_cons_self a t), ?_⟩
      intro o ho
      have ho1 : o ∈ a :: t := (List.Perm.mem_iff hp).mpr ho
      rcases List.mem_cons.mp ho1 with rfl | hot
      · exact Nat.le_refl _
      · have := (List.pairwise_cons.mp hsorted).1 o hot
        simp only [ByScore.Less, decide_eq_false_iff_not] at this
        omega
  obtain ⟨best, hb, hmem, hle⟩ := hmax options hne
  refine ⟨best, hb, hmem, hle, ?_⟩
  intro hdistinct
  have hne_score : ∀ a ∈ options, ∀ b ∈ options, a ≠ b → a.Score ≠ b.Score :=
    fun a ha b hb1 hab =>
      List.Pairwise.forall (fun x y hxy => Ne.symm hxy) hdistinct ha hb1 hab
  refine ⟨?_, ?_⟩
  · intro o ho hob
    have h1 := hle o ho
    have h2 := hne_score o ho best hmem hob
    omega
  · intro l hl
    have hlne : l ≠ [] := fun h => hne (by rw [h] at hl; exact List.Perm.eq_nil (List.Perm.symm hl))
    obtain ⟨best1, hb1, hmem1, hle1⟩ := hmax l hlne
    have hin1 : best1 ∈ options := (List.Perm.mem_iff hl).mp hmem1
    have hin : best ∈ l := (List.Perm.mem_iff hl).mpr hmem
    have e1 := hle best1 hin1
    have e2 := hle1 best hin
    have : best1 = best := by
      by_contra hcon
      exact hne_score best1 hin1 best hmem hcon (by omega)
    rw [hb1, this]

/-- C7, instance: of a proposal scored 10 and one scored 30 the one scored 30 is
returned, whichever comes first. -/
theorem selectBestDownlink_highest_witness :
    selectBestDownlink (exEnv [] []) [optA, optB] = some optB ∧
      selectBestDownlink (exEnv [] []) [optB, optA] = some optB :=
  (selectBestDownlink_highest (exEnv [] []) (exEnv_sortsBy [] []) [optA, optB] (by decide)).elim
    fun best h =>
      have hb : best = optB := Option.some.inj (h.1.symm.trans (by decide))
      ⟨by decide, hb ▸ (h.2.2.2 (by decide)).2 [optB, optA] (List.Perm.swap optA optB [])⟩

/-! ## The matching loop -/

/-- The assembly stage makes no integrity check of its own. -/
theorem assemble_checks (env : Env) (duplicates : List UplinkMessage) (base : UplinkMessage)
    (lw : LorawanMetadata) (d : Device) (pre : List Event) :
    checksIn (assemble env duplicates base lw d pre).events = checksIn pre := by
  have hdel : ∀ msg pre1, checksIn (deliver env d msg pre1).events = checksIn pre1 := by
    intro msg pre1
    rw [(deliver_events env d msg pre1).1, checksIn_append, (deliver_nil env d msg).2.2.1]
    simp
  by_cases h : (collect duplicates).2 = []
  · rw [assemble_no_options env duplicates base lw d pre h, hdel]
  · cases hb : selectBestDownlink env (collect duplicates).2 with
    | none =>
      rw [assemble_panic env duplicates base lw d pre h hb]
      simp [checksIn_append]
      simp [checksIn]
    | some best =>
      rw [assemble_best env duplicates base lw d pre best h hb, hdel, checksIn_append]
      simp [checksIn]

/-- The integrity checks of a run that gets candidates are those of the
matching loop. -/
theorem resolve_checks (env : Env) (duplicates : List UplinkMessage) (base : UplinkMessage)
    (lw : LorawanMetadata) (phy : PHYPayload) (m : MACPayload) (results : List Device)
    (hg : env.GetDevices (devicesRequest m) = Except.ok results) :
    checksIn (resolve env duplicates base lw phy m).events =
      (findDevice env phy m results).events := by
  have hpre : checksIn (Event.getDevices (devicesRequest m) ::
      (findDevice env phy m results).events) = (findDevice env phy m results).events := by
    have h0 := (findDevice_only_checks env phy results m).2.2.2
    simp only [checksIn] at h0
    simp only [checksIn, List.filter_cons]
    simpa using h0
  cases hres : (findDevice env phy m results).res with
  | found d =>
    rw [resolve_found env duplicates base lw phy m results d hg hres]
    cases hv : invalidFCnt d (findDevice env phy m results).macPayload.FHDR.FCnt
    · simpa [assemble_checks] using hpre
    · simpa using hpre
  | failed e =>
    unfold devicesRequest at hg hpre
    by_cases hl : results.length = 0
    · have : results = [] := List.length_eq_zero.mp hl
      subst this
      simp [resolve, hg, checksIn, findDevice]
    · simp [resolve, hg, hl, hres, hpre]
  | noMatch =>
    unfold devicesRequest at hg hpre
    by_cases hl : results.length = 0
    · have : results = [] := List.length_eq_zero.mp hl
      subst this
      simp [resolve, hg, checksIn, findDevice]
    · simp [resolve, hg, hl, hres, hpre]

theorem checksOf_length (env : Env) (phy : PHYPayload) (cs : List Device) :
    ∀ m, (checksOf env phy m cs).length = cs.length := by
  induction cs with
  | nil => intro m; rfl
  | cons c cs ih => intro m; simp [checksOf, ih]

/-- The loop stops at the first candidate whose check succeeds: when no check
of the loop returns an error, no candidate of `pre` passes its check and `d`
passes its own, the loop finds `d`, having checked `pre` and `d` and nothing
else, and every candidate of `pre` failed its check. -/
theorem findDevice_first (env : Env) (phy : PHYPayload) (d : Device) (post : List Device)
    (pre : List Device) :
    ∀ m,
      (∀ p k e, Event.validateMIC p k (Except.error e) ∉
        (findDevice env phy m (pre ++ d :: post)).events) →
      (∀ p1 c p2, pre = p1 ++ c :: p2 → check env phy m p1 c ≠ Except.ok true) →
      check env phy m pre d = Except.ok true →
      findDevice env phy m (pre ++ d :: post) =
          ⟨Match.found d, widen (headerAfter m pre) d, checksOf env phy m (pre ++ [d])⟩ ∧
        (∀ p1 c p2, pre = p1 ++ c :: p2 → check env phy m p1 c = Except.ok false) := by
  induction pre with
  | nil =>
    intro m _ _ hd
    have hr : env.ValidateMIC (withMAC phy (widen m d)) d.NwkSKey = Except.ok true := hd
    refine ⟨?_, ?_⟩
    · rw [List.nil_append, findDevice_cons_true env phy m d post hr]
      simp [headerAfter, checksOf, hr]
    · intro p1 c p2 h
      exact absurd h (by simp)
  | cons c pre ih =>
    intro m hnoerr hfirst hd
    have hc : check env phy m [] c ≠ Except.ok true := hfirst [] c pre rfl
    have hcdef : check env phy m [] c = env.ValidateMIC (withMAC phy (widen m c)) c.NwkSKey := rfl
    cases hr : env.ValidateMIC (withMAC phy (widen m c)) c.NwkSKey with
    | error e =>
      exfalso
      apply hnoerr (withMAC phy (widen m c)) c.NwkSKey e
      rw [List.cons_append, findDevice_cons_error env phy m c _ e hr]
      simp
    | ok b =>
      cases b with
      | true => rw [hcdef, hr] at hc; exact absurd rfl hc
      | false =>
        have hstep := findDevice_cons_false env phy m c (pre ++ d :: post) hr
        have hnoerr1 : ∀ p k e, Event.validateMIC p k (Except.error e) ∉
            (findDevice env phy (widen m c) (pre ++ d :: post)).events := by
          intro p k e hmem
          apply hnoerr p k e
          rw [List.cons_append, hstep]
          exact List.mem_cons_of_mem _ hmem
        have hfirst1 : ∀ p1 c1 p2, pre = p1 ++ c1 :: p2 →
            check env phy (widen m c) p1 c1 ≠ Except.ok true := by
          intro p1 c1 p2 h
          have := hfirst (c :: p1) c1 p2 (by rw [h]; rfl)
          exact this
        have hd1 : check env phy (widen m c) pre d = Except.ok true := hd
        obtain ⟨i1, i2⟩ := ih (widen m c) hnoerr1 hfirst1 hd1
        refine ⟨?_, ?_⟩
        · rw [List.cons_append, hstep, i1]
          simp [headerAfter, checksOf, hr]
        · intro p1 c1 p2 h
          cases p1 with
          | nil =>
            simp only [List.nil_append, List.cons.injEq] at h
            obtain ⟨h1, _⟩ := h
            subst h1
            rw [hcdef, hr]
          | cons x p1 =>
            simp only [List.cons_append, List.cons.injEq] at h
            obtain ⟨h1, h2⟩ := h
            subst h1
            exact i2 p1 c1 p2 h2

/-- The loop ends without a match exactly when no candidate passes its check,
provided no check of the loop returns an error. -/
theorem findDevice_noMatch_iff (env : Env) (phy : PHYPayload) (cs : List Device) :
    ∀ m,
      (∀ p k e, Event.validateMIC p k (Except.error e) ∉ (findDevice env phy m cs).events) →
      ((findDevice env phy m cs).res = Match.noMatch ↔
        ∀ p1 c p2, cs = p1 ++ c :: p2 → check env phy m p1 c ≠ Except.ok true) := by
  induction cs with
  | nil =>
    intro m _
    constructor
    · intro _ p1 c p2 h
      exact absurd h (by simp)
    · intro _
      rfl
  | cons c cs ih =>
    intro m hnoerr
    have hcdef : check env phy m [] c = env.ValidateMIC (withMAC phy (widen m c)) c.NwkSKey := rfl
    cases hr : env.ValidateMIC (withMAC phy (widen m c)) c.NwkSKey with
    | error e =>
      exfalso
      apply hnoerr (withMAC phy (widen m c)) c.NwkSKey e
      rw [findDevice_cons_error env phy m c _ e hr]
      simp
    | ok b =>
      cases b with
      | true =>
        rw [findDevice_cons_true env phy m c cs hr]
        constructor
        · intro h
          simp at h
        · intro h
          exact absurd (hcdef.trans hr) (h [] c cs rfl)
      | false =>
        have hstep := findDevice_cons_false env phy m c cs hr
        have hnoerr1 : ∀ p k e, Event.validateMIC p k (Except.error e) ∉
            (findDevice env phy (widen m c) cs).events := by
          intro p k e hmem
          apply hnoerr p k e
          rw [hstep]
          exact List.mem_cons_of_mem _ hmem
        rw [hstep]
        simp only
        rw [ih (widen m c) hnoerr1]
        constructor
        · intro h p1 c1 p2 hsplit
          cases p1 with
          | nil =>
            simp only [List.nil_append, List.cons.injEq] at hsplit
            obtain ⟨h1, _⟩ := hsplit
            subst h1
            rw [hcdef, hr]
            simp
          | cons x p1 =>
            simp only [List.cons_append, List.cons.injEq] at hsplit
            obtain ⟨h1, h2⟩ := hsplit
            subst h1
            exact h p1 c1 p2 h2
        · intro h p1 c1 p2 hsplit
          exact h (c :: p1) c1 p2 (by rw [hsplit]; rfl)

/-- Where the two lookup sentinels come from, in a run that gets candidates. -/
theorem resolve_sentinels (env : Env) (duplicates : List UplinkMessage) (base : UplinkMessage)
    (lw : LorawanMetadata) (phy : PHYPayload) (m : MACPayload) (results : List Device)
    (hg : env.GetDevices (devicesRequest m) = Except.ok results) :
    ((resolve env duplicates base lw phy m).out = Outcome.returned (some Error.ErrNotFound) ↔
        results = []) ∧
      ((resolve env duplicates base lw phy m).out = Outcome.returned (some Error.ErrNoMatch) ↔
        results ≠ [] ∧ (findDevice env phy m results).res = Match.noMatch) ∧
      ((resolve env duplicates base lw phy m).out = Outcome.returned (some Error.ErrNotFound) ∨
        (resolve env duplicates base lw phy m).out = Outcome.returned (some Error.ErrNoMatch) →
        submittedOf (resolve env duplicates base lw phy m).events = []) := by
  have hpre := (events_before_assembly env phy m results).1
  by_cases hl : results = []
  · subst hl
    unfold devicesRequest at hg
    simp [resolve, hg, submittedOf]
  · have hlen : results.length ≠ 0 := fun h => hl (List.length_eq_zero.mp h)
    cases hres : (findDevice env phy m results).res with
    | found d =>
      rw [resolve_found env duplicates base lw phy m results d hg hres]
      cases hv : invalidFCnt d (findDevice env phy m results).macPayload.FHDR.FCnt
      · obtain ⟨_, a2, a3⟩ := assemble_out env duplicates base lw d
          (Event.getDevices (devicesRequest m) :: (findDevice env phy m results).events)
        simp [hl, a2, a3]
      · simp [hl]
    | failed e =>
      unfold devicesRequest at hg hpre
      simp [resolve, hg, hlen, hres, hl]
    | noMatch =>
      unfold devicesRequest at hg hpre
      simp [resolve, hg, hlen, hres, hl, hpre]

/-! ## Device matching and the lookup errors -/

/-- C2: for a candidate list in which no integrity check of the run returns an
error and `d`, after the candidates `pre`, is the first candidate whose check
succeeds, the matched device is `d`; every candidate of `pre` was checked and
failed; the checks of the run are those of `pre` and `d`, in order, so no
candidate after `d` is checked; and the `DevEui` and `AppEui` of the message
handed to the network server are those of `d` (one such message exists when `d`
passes the anti-replay check, unless the selector panics). -/
theorem HandleUplink_first_match (env : Env) (uplink base : UplinkMessage)
    (rest : List UplinkMessage) (lw : LorawanMetadata) (phy : PHYPayload) (macPayload : MACPayload)
    (pre : List Device) (d : Device) (post : List Device)
    (hdec : Decodes env uplink base rest lw phy macPayload)
    (hg : env.GetDevices (devicesRequest macPayload) = Except.ok (pre ++ d :: post))
    (hnoerr : ∀ p k e, Event.validateMIC p k (Except.error e) ∉ (HandleUplink env uplink).events)
    (hfirst : ∀ p1 c p2, pre = p1 ++ c :: p2 → check env phy macPayload p1 c ≠ Except.ok true)
    (hd : check env phy macPayload pre d = Except.ok true) :
    (findDevice env phy macPayload (pre ++ d :: post)).res = Match.found d ∧
      (∀ p1 c p2, pre = p1 ++ c :: p2 → check env phy macPayload p1 c = Except.ok false) ∧
      (HandleUplink env uplink).checks = checksOf env phy macPayload (pre ++ [d]) ∧
      (HandleUplink env uplink).checks.length = pre.length + 1 ∧
      (∀ msg ∈ (HandleUplink env uplink).submitted,
        msg.DevEui = d.DevEui ∧ msg.AppEui = d.AppEui) ∧
      (invalidFCnt d (widen (headerAfter macPayload pre) d).FHDR.FCnt = false →
        (HandleUplink env uplink).out ≠ Outcome.panicked →
        ∃ msg, (HandleUplink env uplink).submitted = [msg]) := by
  have hchecks : (HandleUplink env uplink).checks =
      (findDevice env phy macPayload (pre ++ d :: post)).events := by
    unfold Run.checks
    rw [HandleUplink_of_decodes hdec]
    exact resolve_checks env _ base lw phy macPayload _ hg
  have hnoerr1 : ∀ p k e, Event.validateMIC p k (Except.error e) ∉
      (findDevice env phy macPayload (pre ++ d :: post)).events := by
    intro p k e hmem
    apply hnoerr p k e
    rw [← hchecks] at hmem
    exact (List.mem_filter.mp hmem).1
  obtain ⟨hfd, hfail⟩ := findDevice_first env phy d post pre macPayload hnoerr1 hfirst hd
  have hres : (findDevice env phy macPayload (pre ++ d :: post)).res = Match.found d := by
    rw [hfd]
  have hhdr : (findDevice env phy macPayload (pre ++ d :: post)).macPayload =
      widen (headerAfter macPayload pre) d := by
    rw [hfd]
  refine ⟨hres, hfail, ?_, ?_, ?_, ?_⟩
  · rw [hchecks, hfd]
  · rw [hchecks, hfd]
    simp [checksOf_length]
  · intro msg hmsg
    cases hv : invalidFCnt d (findDevice env phy macPayload (pre ++ d :: post)).macPayload.FHDR.FCnt
    · obtain ⟨_, hsub⟩ := HandleUplink_assembled _ d hdec hg hres hv
      rcases hsub with ⟨_, h2, _⟩ | ⟨tmpl, _, h2, _⟩
      · rw [h2] at hmsg; simp at hmsg
      · rw [h2] at hmsg
        have hm : msg = buildUplink env base lw d
            ((base :: rest).map (fun u => u.GatewayMetadata)) tmpl := by
          simpa using hmsg
        subst hm
        simp [buildUplink]
    · exfalso
      unfold Run.submitted at hmsg
      rw [HandleUplink_of_decodes hdec, resolve_found env _ base lw phy macPayload _ d hg hres] at hmsg
      simp only [hv, if_true] at hmsg
      rw [(events_before_assembly env phy macPayload (pre ++ d :: post)).1] at hmsg
      simp at hmsg
  · intro hv hnp
    rw [← hhdr] at hv
    obtain ⟨_, hsub⟩ := HandleUplink_assembled _ d hdec hg hres hv
    rcases hsub with ⟨h1, _, _⟩ | ⟨tmpl, _, h2, _⟩
    · exact absurd h1 hnp
    · exact ⟨_, h2⟩

/-- C3: in a run with a non-empty batch that decodes, whose candidate lookup
returns without error and in which no integrity check returns an error,
`HandleUplink` returns `ErrNotFound` if and only if the candidate list is
empty, and `ErrNoMatch` if and only if the list is non-empty and no candidate's
check succeeds; in both cases nothing is submitted to the network server. -/
theorem HandleUplink_lookup_errors (env : Env) (uplink base : UplinkMessage)
    (rest : List UplinkMessage) (lw : LorawanMetadata) (phy : PHYPayload) (macPayload : MACPayload)
    (results : List Device)
    (hdec : Decodes env uplink base rest lw phy macPayload)
    (hg : env.GetDevices (devicesRequest macPayload) = Except.ok results)
    (hnoerr : ∀ p k e, Event.validateMIC p k (Except.error e) ∉ (HandleUplink env uplink).events) :
    ((HandleUplink env uplink).out = Outcome.returned (some Error.ErrNotFound) ↔ results = []) ∧
      ((HandleUplink env uplink).out = Outcome.returned (some Error.ErrNoMatch) ↔
        results ≠ [] ∧
          ∀ p1 c p2, results = p1 ++ c :: p2 →
            check env phy macPayload p1 c ≠ Except.ok true) ∧
      ((HandleUplink env uplink).out = Outcome.returned (some Error.ErrNotFound) ∨
        (HandleUplink env uplink).out = Outcome.returned (some Error.ErrNoMatch) →
        (HandleUplink env uplink).submitted = []) := by
  have hchecks : (HandleUplink env uplink).checks =
      (findDevice env phy macPayload results).events := by
    unfold Run.checks
    rw [HandleUplink_of_decodes hdec]
    exact resolve_checks env _ base lw phy macPayload _ hg
  have hnoerr1 : ∀ p k e, Event.validateMIC p k (Except.error e) ∉
      (findDevice env phy macPayload results).events := by
    intro p k e hmem
    apply hnoerr p k e
    rw [← hchecks] at hmem
    exact (List.mem_filter.mp hmem).1
  obtain ⟨s1, s2, s3⟩ := resolve_sentinels env (base :: rest) base lw phy macPayload results hg
  unfold Run.submitted
  rw [HandleUplink_of_decodes hdec]
  refine ⟨s1, ?_, s3⟩
  rw [s2, findDevice_noMatch_iff env phy results macPayload hnoerr1]

/-- A list of events none of which is a check in error has no such check. -/
theorem no_check_error (evs : List Event) (h : evs.all (fun ev => !ev.isCheckError) = true) :
    ∀ p k e, Event.validateMIC p k (Except.error e) ∉ evs := by
  intro p k e hmem
  have := List.all_eq_true.mp h _ hmem
  simp [Event.isCheckError] at this

/-- A one-element list splits in one way only. -/
theorem split_singleton {α : Type} {a c : α} {p1 p2 : List α} (h : [a] = p1 ++ c :: p2) :
    p1 = [] ∧ c = a := by
  cases p1 with
  | nil =>
    simp only [List.nil_append, List.cons.injEq] at h
    exact ⟨rfl, h.1.symm⟩
  | cons x t =>
    simp only [List.cons_append, List.cons.injEq] at h
    exact absurd h.2 (by simp)

/-- C2, instance: of three candidates the first fails its check, the second
passes and is matched, the third (which would pass too) is never checked. -/
theorem HandleUplink_first_match_witness :
    (HandleUplink (exEnv [exUplink 5 [7] 1 []] [devX, exDevice, devY])
        (exUplink 5 [7] 1 [])).checks.length = 2 ∧
      ∃ msg, (HandleUplink (exEnv [exUplink 5 [7] 1 []] [devX, exDevice, devY])
          (exUplink 5 [7] 1 [])).submitted = [msg] ∧
        msg.DevEui = exDevice.DevEui ∧ msg.AppEui = exDevice.AppEui :=
  have h := HandleUplink_first_match (exEnv [exUplink 5 [7] 1 []] [devX, exDevice, devY])
    (exUplink 5 [7] 1 []) (exUplink 5 [7] 1 []) [] ⟨0, "SF7BW125"⟩ (exPHY 5 [7]) (exMAC 5)
    [devX] exDevice [devY] ⟨rfl, rfl, rfl, rfl⟩ rfl
    (no_check_error _ (by decide))
    (fun p1 c p2 hs => by
      obtain ⟨h1, h2⟩ := split_singleton hs
      subst h1; subst h2
      decide)
    (by decide)
  ⟨h.2.2.2.1, (h.2.2.2.2.2 (by decide) (by decide)).elim fun msg hm =>
    ⟨msg, hm, h.2.2.2.2.1 msg (by rw [hm]; exact List.mem_singleton_self msg)⟩⟩

/-- C3, instance: the only candidate holds another key, so the run ends with
`ErrNoMatch` and submits nothing. -/
theorem HandleUplink_lookup_errors_witness :
    (HandleUplink (exEnv [exUplink 5 [7] 1 []] [devX]) (exUplink 5 [7] 1 [])).out =
        Outcome.returned (some Error.ErrNoMatch) ∧
      (HandleUplink (exEnv [exUplink 5 [7] 1 []] [devX]) (exUplink 5 [7] 1 [])).submitted = [] :=
  have h := HandleUplink_lookup_errors (exEnv [exUplink 5 [7] 1 []] [devX])
    (exUplink 5 [7] 1 []) (exUplink 5 [7] 1 []) [] ⟨0, "SF7BW125"⟩ (exPHY 5 [7]) (exMAC 5)
    [devX] ⟨rfl, rfl, rfl, rfl⟩ rfl (no_check_error _ (by decide))
  have hout := h.2.1.mpr ⟨by decide, fun p1 c p2 hs => by
    obtain ⟨h1, h2⟩ := split_singleton hs
    subst h1; subst h2
    decide⟩
  ⟨hout, h.2.2 (Or.inr hout)⟩

/-! ## The frame counter across loop turns -/

/-- C10, the code at the failing input: the frame carries on-air counter 5 and
an integrity code valid for key `[7]` under counter 5.  With the 16-bit device
`exDevice` (key `[7]`) alone, or first in the list, it is checked under counter
5 and matched.  With the 32-bit device `devW` before it, `exDevice` is checked
under `devW`'s counter 65541, which the loop left in the header: the check
fails and the run ends with `ErrNoMatch`. -/
theorem findDevice_counter_carried_over :
    ((HandleUplink (exEnv [exUplink 5 [7] 1 []] [exDevice]) (exUplink 5 [7] 1 [])).out =
        Outcome.returned none ∧
      (HandleUplink (exEnv [exUplink 5 [7] 1 []] [exDevice]) (exUplink 5 [7] 1 [])).checks =
        [Event.validateMIC (withMAC (exPHY 5 [7]) (exMAC 5)) [7] (Except.ok true)]) ∧
    ((HandleUplink (exEnv [exUplink 5 [7] 1 []] [exDevice, devW]) (exUplink 5 [7] 1 [])).out =
        Outcome.returned none) ∧
    ((HandleUplink (exEnv [exUplink 5 [7] 1 []] [devW, exDevice]) (exUplink 5 [7] 1 [])).out =
        Outcome.returned (some Error.ErrNoMatch) ∧
      (HandleUplink (exEnv [exUplink 5 [7] 1 []] [devW, exDevice]) (exUplink 5 [7] 1 [])).checks =
        [Event.validateMIC (withMAC (exPHY 5 [7]) (exMAC 65541)) [9] (Except.ok false),
          Event.validateMIC (withMAC (exPHY 5 [7]) (exMAC 65541)) [7] (Except.ok false)]) := by
  decide

end Broker
